import Mathlib

/-!
Verification of the garmr authentication library (services, middleware and
guards) against its natural-language specification.  The TypeScript sources
are shallowly embedded: every service method becomes a Lean function on an
explicit store (a list of principals), thrown exceptions become `Except`
errors, and event emission becomes an explicit list of emitted events.
String manipulation (`split(":")`, `split(/\s+/)`, `toLowerCase`) is
re-implemented by structural recursion over the character list so that every
definition evaluates inside the kernel.
-/

namespace Garmr

/-- Splits a character list at every occurrence of `sep`, keeping empty
segments, mirroring JavaScript `String.prototype.split` with a
single-character separator. -/
def splitCharsAux (sep : Char) : List Char → List (List Char)
  | [] => [[]]
  | c :: rest =>
    let r := splitCharsAux sep rest
    if c = sep then [] :: r
    else
      match r with
      | [] => [[c]]
      | s :: tail => (c :: s) :: tail

/-- JavaScript `s.split(":")`: list of the `:`-separated segments of `s`,
empty segments included (`"".split(":") = [""]`, `"a:".split(":") = ["a", ""]`). -/
def splitOnColon (s : String) : List String :=
  (splitCharsAux ':' s.data).map (fun l => String.mk l)

/-- First element of the destructuring `[action, resource] = s.split(":")`. -/
def actionPart (s : String) : String :=
  match splitOnColon s with
  | a :: _ => a
  | [] => ""

/-- Second element of the destructuring `[action, resource] = s.split(":")`;
`none` models JavaScript `undefined` (no second segment). -/
def resourcePart (s : String) : Option String :=
  match splitOnColon s with
  | _ :: r :: _ => some r
  | _ => none

/-- JavaScript truthiness of a `string | undefined` value: `undefined` and
the empty string are falsy. -/
def truthy : Option String → Bool
  | none => false
  | some s => !(s = "")

/-- ASCII lowercasing, modelling JavaScript `toLowerCase` on the inputs the
library handles. -/
def lowerStr (s : String) : String :=
  String.mk (s.data.map Char.toLower)

/-- JavaScript `list.join(" | ")`. -/
def joinWithBar : List String → String
  | [] => ""
  | [s] => s
  | s :: rest => s ++ " | " ++ joinWithBar rest

/-- The authenticatable principal entity: `id`, `email`, an optional stored
password hash and an optional permission list (absent models the TypeScript
`permissions?: string[]` being `undefined`). -/
structure Authenticatable where
  id : String
  email : String
  password : Option String := none
  permissions : Option (List String) := none
deriving Repr, DecidableEq

/-- Repository lookup `repo.findOne({ where: { email } })` over an explicit
store. -/
def findByEmail (store : List Authenticatable) (email : String) : Option Authenticatable :=
  store.find? (fun p => p.email = email)

/-- Repository lookup `repo.findOne({ where: { id } })` over an explicit
store. -/
def findById (store : List Authenticatable) (id : String) : Option Authenticatable :=
  store.find? (fun p => p.id = id)

/-- Events emitted on the event bus (`garmr.registered`, `garmr.authenticated`). -/
inductive GarmrEvent
  | registered (principal : Authenticatable)
  | authenticated (principal : Authenticatable)
deriving Repr, DecidableEq

/-! ## PermissionService -/

/-- `PermissionService.matchesPermission(granted, required)`: exact match,
superuser `*`, then `action:resource` parsing with `*:resource` and
`action:*` wildcards; a required value without a truthy resource part only
matches exactly or via `*`. -/
def matchesPermission (granted required : String) : Bool :=
  if granted = required then true
  else if granted = "*" then true
  else
    let grantedAction := actionPart granted
    let grantedResource := resourcePart granted
    let requiredAction := actionPart required
    let requiredResource := resourcePart required
    if truthy requiredResource = false then false
    else if grantedAction = "*" ∧ grantedResource = requiredResource then true
    else if grantedAction = requiredAction ∧ grantedResource = some "*" then true
    else false

/-- `PermissionService.hasPermission`: some held permission matches. -/
def hasPermission (principal : Authenticatable) (permission : String) : Bool :=
  (principal.permissions.getD []).any (fun p => matchesPermission p permission)

/-- `PermissionService.hasAllPermissions` (AND logic, `Array.every`). -/
def hasAllPermissions (principal : Authenticatable) (permissions : List String) : Bool :=
  permissions.all (fun p => hasPermission principal p)

/-- `PermissionService.hasAnyPermission` (OR logic, `Array.some`). -/
def hasAnyPermission (principal : Authenticatable) (permissions : List String) : Bool :=
  permissions.any (fun p => hasPermission principal p)

/-- `PermissionService.requireAllPermissions`: iterates the list in order and
throws `PermissionDeniedException(permission)` at the first unmatched one. -/
def requireAllPermissions (principal : Authenticatable) : List String → Except String Unit
  | [] => .ok ()
  | p :: rest =>
    if hasPermission principal p then requireAllPermissions principal rest
    else .error p

/-- `PermissionService.requireAnyPermission`: throws
`PermissionDeniedException(permissions.join(" | "))` when no permission is
matched. -/
def requireAnyPermission (principal : Authenticatable) (permissions : List String) :
    Except String Unit :=
  if hasAnyPermission principal permissions then .ok ()
  else .error (joinWithBar permissions)

/-! ## JSON Web Token model

The `jsonwebtoken` collaborator is embedded at the level of its observable
behaviour: a token is either structurally unparsable or a signed claim set,
and the HMAC is an abstract function `mac : String → JwtClaims → String`
(the signature of a token is valid for `secret` exactly when it equals
`mac secret claims`). -/

/-- The claim set carried by a token (`sub`, `aud`, `email`, `nbf`, `exp`);
`none` models an absent claim. -/
structure JwtClaims where
  sub : Option String := none
  aud : Option String := none
  email : Option String := none
  nbf : Option Int := none
  exp : Option Int := none
deriving Repr, DecidableEq

/-- A structurally well-formed three-part token: header algorithm, payload
claims and signature (the empty string models an absent signature). -/
structure SignedJwt where
  alg : String
  claims : JwtClaims
  sig : String
deriving Repr, DecidableEq

/-- Input to verification: either a string that cannot be parsed as a token
at all, or a parsed token. -/
inductive JwtInput
  | malformed
  | token (t : SignedJwt)
deriving Repr, DecidableEq

/-- The error classes raised by `jsonwebtoken.verify`: generic
`JsonWebTokenError`s (malformed token, missing signature, disallowed
algorithm, signature mismatch), `NotBeforeError` and `TokenExpiredError`. -/
inductive JwtError
  | malformedJwt
  | signatureRequired
  | invalidAlgorithm
  | invalidSignature
  | notBeforeError
  | tokenExpired
deriving Repr, DecidableEq

/-- The HMAC algorithms `jsonwebtoken.verify` accepts by default when the
key is a shared secret; `"none"` is never in this list. -/
def allowedAlgorithms : List String := ["HS256", "HS384", "HS512"]

/-- `jsonwebtoken.verify(token, secret)` at clock time `now`: structural
parse, signature presence, algorithm allow-list, signature comparison, then
`nbf` (fails when `nbf > now`) and `exp` (fails when `now ≥ exp`). -/
def jsonwebtokenVerify (mac : String → JwtClaims → String) (secret : String) (now : Int) :
    JwtInput → Except JwtError JwtClaims
  | .malformed => .error .malformedJwt
  | .token t =>
    if t.sig = "" then .error .signatureRequired
    else if !(allowedAlgorithms.contains t.alg) then .error .invalidAlgorithm
    else if !(t.sig = mac secret t.claims) then .error .invalidSignature
    else
      match t.claims.nbf with
      | some n =>
        if now < n then .error .notBeforeError
        else
          match t.claims.exp with
          | some x => if x ≤ now then .error .tokenExpired else .ok t.claims
          | none => .ok t.claims
      | none =>
        match t.claims.exp with
        | some x => if x ≤ now then .error .tokenExpired else .ok t.claims
        | none => .ok t.claims

/-! ## TokenService -/

/-- `TokenFailedVerificationException`: wraps the `jsonwebtoken` error it was
constructed from. -/
structure TokenFailedVerificationException where
  cause : JwtError
deriving Repr, DecidableEq

/-- The `reason` getter: `"expired"` when the cause is a `TokenExpiredError`,
`"invalid"` for every other cause. -/
def TokenFailedVerificationException.reason (e : TokenFailedVerificationException) : String :=
  if e.cause = .tokenExpired then "expired" else "invalid"

/-- `TokenService.verify`: delegates to `jsonwebtoken.verify` and wraps any
error into a `TokenFailedVerificationException`. -/
def tokenServiceVerify (mac : String → JwtClaims → String) (secret : String) (now : Int)
    (input : JwtInput) : Except TokenFailedVerificationException JwtClaims :=
  match jsonwebtokenVerify mac secret now input with
  | .ok payload => .ok payload
  | .error e => .error ⟨e⟩

/-! ## AuthenticationService -/

/-- The exceptions thrown by `AuthenticationService`. -/
inductive AuthException
  | invalidCredentials (message : String)
  | incorrectCredentials (identifier : String)
deriving Repr, DecidableEq

/-- `AuthenticationService.authenticateCredentials`: looks up by lowercased
email, compares the password via `PasswordService.compare` (abstracted as
`compare`), throws `IncorrectCredentialsException(credentials.email)` when
either step fails, and emits `garmr.authenticated` on success. -/
def authenticateCredentials (compare : String → Option String → Bool)
    (store : List Authenticatable) (email password : String) :
    Except AuthException (Authenticatable × List GarmrEvent) :=
  match findByEmail store (lowerStr email) with
  | none => .error (.incorrectCredentials email)
  | some entity =>
    if !(compare password entity.password) then .error (.incorrectCredentials email)
    else .ok (entity, [.authenticated entity])

/-- `AuthenticationService.authenticateJwt` as it stands in
`src/libs/garmr/src/services/authentication.service.ts`: rejects a falsy
carrier, verifies the token (mapping `NotBeforeError`, `TokenExpiredError`
and other verification errors to the corresponding
`InvalidCredentialsException` messages), requires a truthy `sub` claim,
looks the principal up by id, and emits `garmr.authenticated` on success.
No audience check is performed. -/
def authenticateJwt (mac : String → JwtClaims → String) (secret : String) (now : Int)
    (store : List Authenticatable) (carrier : Option JwtInput) :
    Except AuthException (Authenticatable × List GarmrEvent) :=
  match carrier with
  | none => .error (.invalidCredentials "Invalid JWT: JWT not provided")
  | some input =>
    match jsonwebtokenVerify mac secret now input with
    | .error .notBeforeError =>
      .error (.invalidCredentials "Invalid JWT: Not active yet (nbf claim)")
    | .error .tokenExpired => .error (.invalidCredentials "Invalid JWT: Token expired")
    | .error _ => .error (.invalidCredentials "Invalid JWT: Invalid JWT signature")
    | .ok payload =>
      match payload.sub with
      | none => .error (.invalidCredentials "Invalid JWT payload: missing sub claim")
      | some s =>
        if s = "" then .error (.invalidCredentials "Invalid JWT payload: missing sub claim")
        else
          match findById store s with
          | none => .error (.incorrectCredentials s)
          | some entity => .ok (entity, [.authenticated entity])

/-! ## RegistrationService -/

/-- The exception thrown by `RegistrationService`. -/
inductive RegistrationException
  | emailAlreadyExists (email : String)
deriving Repr, DecidableEq

/-- `RegistrationService.register`: lowercases the email, throws
`EmailAlreadyExistsException(dto.email)` (original casing) when a principal
with the lowercased email exists, otherwise persists a principal with the
lowercased email and the hash of the password (`hash` abstracts
`PasswordService.hash`, `freshId` the id generated by the store) and emits
`garmr.registered`.  Returns the saved entity, the updated store and the
emitted events. -/
def register (hash : String → String) (freshId : String) (store : List Authenticatable)
    (email password : String) :
    Except RegistrationException (Authenticatable × List Authenticatable × List GarmrEvent) :=
  let lower := lowerStr email
  match findByEmail store lower with
  | some _ => .error (.emailAlreadyExists email)
  | none =>
    let saved : Authenticatable :=
      { id := freshId, email := lower, password := some (hash password), permissions := none }
    .ok (saved, store ++ [saved], [.registered saved])

/-! ## MagicLinkService -/

/-- The exceptions thrown by `MagicLinkService.verify`. -/
inductive MagicLinkException
  | tokenFailedVerification (e : TokenFailedVerificationException)
  | invalidMagicLinkToken (reason : String)
deriving Repr, DecidableEq

/-- Result and effects of `MagicLinkService.verify`: the entity, the
`isNewUser` flag, the updated store and the emitted events. -/
structure MagicLinkVerifyResult where
  entity : Authenticatable
  isNewUser : Bool
  store : List Authenticatable
  events : List GarmrEvent
deriving Repr, DecidableEq

/-- `MagicLinkService.verify`: verifies via `TokenService.verify`, requires
`aud = "magic-link"` (otherwise `InvalidMagicLinkTokenException("invalid
audience")`), requires a truthy `email` claim (otherwise `"missing email
claim"`), lowercases the email, then either authenticates the existing
principal (emitting `garmr.authenticated`) or creates one with no password
(emitting `garmr.registered`). -/
def magicLinkVerify (mac : String → JwtClaims → String) (secret : String) (now : Int)
    (freshId : String) (store : List Authenticatable) (input : JwtInput) :
    Except MagicLinkException MagicLinkVerifyResult :=
  match tokenServiceVerify mac secret now input with
  | .error e => .error (.tokenFailedVerification e)
  | .ok payload =>
    if !(payload.aud = some "magic-link") then .error (.invalidMagicLinkToken "invalid audience")
    else
      match payload.email with
      | none => .error (.invalidMagicLinkToken "missing email claim")
      | some em =>
        if em = "" then .error (.invalidMagicLinkToken "missing email claim")
        else
          let email := lowerStr em
          match findByEmail store email with
          | some existing =>
            .ok { entity := existing, isNewUser := false, store := store,
                  events := [.authenticated existing] }
          | none =>
            let saved : Authenticatable :=
              { id := freshId, email := email, password := none, permissions := none }
            .ok { entity := saved, isNewUser := true, store := store ++ [saved],
                  events := [.registered saved] }

/-! ## RequiresPermissionGuard -/

/-- The exceptions thrown by `RequiresPermissionGuard.canActivate`. -/
inductive GuardException
  | unauthorizedException
  | permissionDenied (permission : String)
deriving Repr, DecidableEq

/-- `RequiresPermissionGuard.canActivate`: throws `UnauthorizedException`
without a principal; then runs `requireAllPermissions` only when the
AND-metadata is a non-empty list (`requiredAll?.length` is truthy) and
`requireAnyPermission` only when the OR-metadata is a non-empty list;
returns `true` otherwise.  `none` models metadata that is absent
(`undefined` from the reflector). -/
def canActivate (principal : Option Authenticatable)
    (requiredAll requiredAny : Option (List String)) : Except GuardException Bool :=
  match principal with
  | none => .error .unauthorizedException
  | some p =>
    let runAll : Except String Unit :=
      match requiredAll with
      | some l => if !(l = []) then requireAllPermissions p l else .ok ()
      | none => .ok ()
    match runAll with
    | .error perm => .error (.permissionDenied perm)
    | .ok () =>
      let runAny : Except String Unit :=
        match requiredAny with
        | some l => if !(l = []) then requireAnyPermission p l else .ok ()
        | none => .ok ()
      match runAny with
      | .error perm => .error (.permissionDenied perm)
      | .ok () => .ok true

/-! ## AuthenticationMiddleware -/

/-- First element of `header.split(/\s+/)`: the text before the first
whitespace run. -/
def schemeOf (h : String) : String :=
  String.mk (h.data.takeWhile (fun c => !c.isWhitespace))

/-- Second element of `header.split(/\s+/)`: `none` models `undefined` (no
whitespace at all), `some ""` the empty segment a trailing whitespace run
produces. -/
def bearerTokenOf (h : String) : Option String :=
  match h.data.dropWhile (fun c => !c.isWhitespace) with
  | [] => none
  | rest => some (String.mk ((rest.dropWhile Char.isWhitespace).takeWhile
      (fun c => !c.isWhitespace)))

/-- Outcome of one pass through `AuthenticationMiddleware.use`: either the
request proceeds (optionally with an attached principal, and with `warned`
recording whether the failure warning was written through the request
logger) or the middleware throws an `InvalidCredentialsException`. -/
inductive MiddlewareOutcome
  | proceed (principal : Option Authenticatable) (warned : Bool)
  | threw (message : String)
deriving Repr, DecidableEq

/-- `AuthenticationMiddleware.use`: a falsy `authorization` header proceeds
unauthenticated; a non-bearer scheme or a falsy token throws
`InvalidCredentialsException`; otherwise `service.authenticate(token)` is
attempted, its failure swallowed into an unauthenticated request with a
warning written iff a request logger is present (`req.logger?.warn?.`). -/
def authenticationMiddlewareUse (auth : String → Except AuthException Authenticatable)
    (hasLogger : Bool) (header : Option String) : MiddlewareOutcome :=
  match header with
  | none => .proceed none false
  | some h =>
    if h = "" then .proceed none false
    else
      let scheme := schemeOf h
      if !(lowerStr scheme = "bearer") then
        .threw ("Invalid authentication scheme. Expected Bearer but got \"" ++ scheme ++ "\"")
      else
        match bearerTokenOf h with
        | none => .threw "Invalid authentication header format"
        | some t =>
          if t = "" then .threw "Invalid authentication header format"
          else
            match auth t with
            | .ok p => .proceed (some p) false
            | .error _ => .proceed none hasLogger

/-! ## Helper lemmas -/

/-- JavaScript truthiness of an optional string, characterised. -/
theorem truthy_eq_true_iff (o : Option String) :
    truthy o = true ↔ ∃ s, o = some s ∧ s ≠ "" := by
  cases o <;> simp [truthy]

/-- `requireAllPermissions` throws exactly the first permission of the list
that no held permission matches. -/
theorem requireAllPermissions_eq_find (pr : Authenticatable) (perms : List String) :
    requireAllPermissions pr perms =
      match perms.find? (fun p => !(hasPermission pr p)) with
      | some p => .error p
      | none => .ok () := by
  induction perms with
  | nil => rfl
  | cons p rest ih =>
    by_cases h : hasPermission pr p = true
    · rw [List.find?_cons_of_neg _ (by simp [h])]
      simpa [requireAllPermissions, h] using ih
    · rw [List.find?_cons_of_pos _ (by simp [h])]
      simp [requireAllPermissions, h]

/-- `requireAllPermissions` succeeds exactly when every listed permission is
matched. -/
theorem requireAllPermissions_ok_iff (pr : Authenticatable) (perms : List String) :
    requireAllPermissions pr perms = .ok () ↔ hasAllPermissions pr perms = true := by
  rw [requireAllPermissions_eq_find]
  rcases hf : perms.find? (fun p => !(hasPermission pr p)) with _ | p
  · simp only [List.find?_eq_none] at hf
    simp only [hasAllPermissions, List.all_eq_true]
    simpa using fun a ha => by simpa using hf a ha
  · have hp := List.find?_some hf
    have hmem := List.mem_of_find?_eq_some hf
    simp only [hasAllPermissions, List.all_eq_true]
    constructor
    · intro h; cases h
    · intro h
      have := h p hmem
      simp [this] at hp

/-! ## Claims -/

/-- C2: the permission match returns true exactly when: held equals
required; held is the superuser wildcard `*`; held is `*:r` and required has
the (non-empty) resource part `r`; or held is `a:*` and required has action
part `a` and a non-empty resource part.  When required has no truthy
resource part (a bare token), only exact equality or `*` match. -/
theorem matchesPermission_characterisation :
    (∀ granted required, matchesPermission granted required = true ↔
      granted = required ∨ granted = "*" ∨
        ∃ rr, resourcePart required = some rr ∧ rr ≠ "" ∧
          ((actionPart granted = "*" ∧ resourcePart granted = some rr) ∨
           (actionPart granted = actionPart required ∧ resourcePart granted = some "*"))) ∧
    (∀ granted required, truthy (resourcePart required) = false →
      (matchesPermission granted required = true ↔ granted = required ∨ granted = "*")) := by
  have hbool : ∀ g r, matchesPermission g r = true ↔
      g = r ∨ g = "*" ∨ (truthy (resourcePart r) = true ∧
        ((actionPart g = "*" ∧ resourcePart g = resourcePart r) ∨
         (actionPart g = actionPart r ∧ resourcePart g = some "*"))) := by
    intro g r
    unfold matchesPermission
    split_ifs <;> simp_all
  constructor
  · intro g r
    rw [hbool]
    constructor
    · rintro (h | h | ⟨htr, hcase⟩)
      · exact Or.inl h
      · exact Or.inr (Or.inl h)
      · obtain ⟨rr, hrr, hne⟩ := (truthy_eq_true_iff _).mp htr
        refine Or.inr (Or.inr ⟨rr, hrr, hne, ?_⟩)
        rcases hcase with ⟨ha, hres⟩ | hc
        · exact Or.inl ⟨ha, by rw [hres, hrr]⟩
        · exact Or.inr hc
    · rintro (h | h | ⟨rr, hrr, hne, hcase⟩)
      · exact Or.inl h
      · exact Or.inr (Or.inl h)
      · refine Or.inr (Or.inr ⟨(truthy_eq_true_iff _).mpr ⟨rr, hrr, hne⟩, ?_⟩)
        rcases hcase with ⟨ha, hres⟩ | hc
        · exact Or.inl ⟨ha, by rw [hres, hrr]⟩
        · exact Or.inr hc
  · intro g r htr
    rw [hbool]
    simp [htr]

/-- Witness for C2 at concrete inputs: `*:articles` matches `read:articles`
but not `read:other`, and an action-wildcard never satisfies the bare
requirement `admin`. -/
theorem matchesPermission_characterisation_witness :
    matchesPermission "*:articles" "read:articles" = true ∧
    matchesPermission "*:articles" "read:other" = false ∧
    matchesPermission "admin:*" "admin" = false := by
  refine ⟨?_, ?_, ?_⟩
  · exact (matchesPermission_characterisation.1 "*:articles" "read:articles").mpr
      (Or.inr (Or.inr ⟨"articles", by decide, by decide, Or.inl (by decide)⟩))
  · by_contra h
    rcases (matchesPermission_characterisation.1 "*:articles" "read:other").mp
        (by revert h; decide) with h1 | h1 | ⟨rr, hrr, -, hcase⟩
    · exact absurd h1 (by decide)
    · exact absurd h1 (by decide)
    · have : rr = "other" := by
        have : resourcePart "read:other" = some "other" := by decide
        rw [this] at hrr; cases hrr; rfl
      subst this
      rcases hcase with ⟨-, hres⟩ | ⟨ha, -⟩
      · exact absurd hres (by decide)
      · exact absurd ha (by decide)
  · have := (matchesPermission_characterisation.2 "admin:*" "admin" (by decide))
    by_contra h
    rcases this.mp (by revert h; decide) with h1 | h1
    · exact absurd h1 (by decide)
    · exact absurd h1 (by decide)

/-- C3: the empty AND-set is trivially satisfied and the empty OR-set can
never be satisfied, whatever permissions the principal holds. -/
theorem empty_requirement_sets (p : Authenticatable) :
    hasAllPermissions p [] = true ∧ hasAnyPermission p [] = false :=
  ⟨rfl, rfl⟩

/-- C4: on a non-empty required list, `requireAllPermissions` succeeds iff
every permission is matched and otherwise throws the first unmatched
permission in list order; `requireAnyPermission` succeeds iff some
permission is matched and otherwise throws the alternatives joined with
`" | "`. -/
theorem require_permissions_spec (pr : Authenticatable) (perms : List String)
    (hne : perms ≠ []) :
    (requireAllPermissions pr perms =
       match perms.find? (fun p => !(hasPermission pr p)) with
       | some p => .error p
       | none => .ok ()) ∧
    (requireAllPermissions pr perms = .ok () ↔ hasAllPermissions pr perms = true) ∧
    (requireAnyPermission pr perms = .ok () ↔ hasAnyPermission pr perms = true) ∧
    (hasAnyPermission pr perms = false →
       requireAnyPermission pr perms = .error (joinWithBar perms)) := by
  refine ⟨requireAllPermissions_eq_find pr perms, requireAllPermissions_ok_iff pr perms, ?_, ?_⟩
  · by_cases h : hasAnyPermission pr perms = true <;> simp [requireAnyPermission, h]
  · intro h; simp [requireAnyPermission, h]

/-- Witness for C4: a principal holding only `read:articles` fails the
OR-set `["admin", "delete:articles"]` with the joined alternatives, and the
AND-set `["read:articles", "write:articles"]` with `write:articles`. -/
theorem require_permissions_spec_witness :
    requireAnyPermission
        { id := "u1", email := "u1@example.com", permissions := some ["read:articles"] }
        ["admin", "delete:articles"] = .error "admin | delete:articles" ∧
    requireAllPermissions
        { id := "u1", email := "u1@example.com", permissions := some ["read:articles"] }
        ["read:articles", "write:articles"] = .error "write:articles" := by
  constructor
  · exact (require_permissions_spec
      { id := "u1", email := "u1@example.com", permissions := some ["read:articles"] }
      ["admin", "delete:articles"] (by decide)).2.2.2 (by decide)
  · have h := (require_permissions_spec
      { id := "u1", email := "u1@example.com", permissions := some ["read:articles"] }
      ["read:articles", "write:articles"] (by decide)).1
    rw [h]
    rfl

/-- When a key is not found in a store, looking it up after appending one
entity reduces to looking it up in the singleton. -/
theorem findByEmail_append_of_none (store : List Authenticatable) (saved : Authenticatable)
    (key : String) (h : findByEmail store key = none) :
    findByEmail (store ++ [saved]) key = findByEmail [saved] key := by
  induction store with
  | nil => rfl
  | cons a rest ih =>
    by_cases hpa : a.email = key
    · unfold findByEmail at h
      rw [List.find?_cons_of_pos _ (by simp [hpa])] at h
      cases h
    · unfold findByEmail at h ⊢
      rw [List.find?_cons_of_neg _ (by simp [hpa])] at h
      rw [List.cons_append, List.find?_cons_of_neg _ (by simp [hpa])]
      exact ih h

/-- Inversion of a successful `jsonwebtoken.verify`: the input was a parsed
token carrying a non-empty signature under an allowed algorithm that equals
the MAC of its claims. -/
theorem jsonwebtokenVerify_ok_inv (mac : String → JwtClaims → String) (secret : String)
    (now : Int) (input : JwtInput) (claims : JwtClaims)
    (h : jsonwebtokenVerify mac secret now input = .ok claims) :
    ∃ t, input = .token t ∧ t.sig ≠ "" ∧ allowedAlgorithms.contains t.alg = true ∧
      t.sig = mac secret t.claims := by
  cases input with
  | malformed => simp [jsonwebtokenVerify] at h
  | token t =>
    by_cases hs : t.sig = ""
    · simp [jsonwebtokenVerify, hs] at h
    · by_cases halg : t.alg ∈ allowedAlgorithms
      · by_cases hmac : t.sig = mac secret t.claims
        · exact ⟨t, rfl, hs, by simpa using halg, hmac⟩
        · simp [jsonwebtokenVerify, hs, halg, hmac] at h
      · simp [jsonwebtokenVerify, hs, halg] at h

/-- `jsonwebtoken.verify` raises `TokenExpiredError` exactly on a
well-signed token whose `nbf` (when present) has passed and whose `exp` is
at or before the clock. -/
theorem jsonwebtokenVerify_expired_iff (mac : String → JwtClaims → String) (secret : String)
    (now : Int) (input : JwtInput) :
    jsonwebtokenVerify mac secret now input = .error .tokenExpired ↔
      ∃ t, input = .token t ∧ t.sig ≠ "" ∧ allowedAlgorithms.contains t.alg = true ∧
        t.sig = mac secret t.claims ∧ (∀ n, t.claims.nbf = some n → n ≤ now) ∧
        ∃ x, t.claims.exp = some x ∧ x ≤ now := by
  constructor
  · intro h
    cases input with
    | malformed => simp [jsonwebtokenVerify] at h
    | token t =>
      by_cases hs : t.sig = ""
      · simp [jsonwebtokenVerify, hs] at h
      · by_cases halg : t.alg ∈ allowedAlgorithms
        · by_cases hmac : t.sig = mac secret t.claims
          · have hs2 : ¬ (mac secret t.claims = "") := by rw [← hmac]; exact hs
            refine ⟨t, rfl, hs, by simpa using halg, hmac, ?_, ?_⟩
            · intro n hn
              by_cases hlt : now < n
              · simp [jsonwebtokenVerify, hs, hs2, halg, hmac, hn, hlt] at h
              · omega
            · cases hn : t.claims.nbf with
              | some n =>
                by_cases hlt : now < n
                · simp [jsonwebtokenVerify, hs, hs2, halg, hmac, hn, hlt] at h
                · cases hexp : t.claims.exp with
                  | some x =>
                    by_cases hle : x ≤ now
                    · exact ⟨x, rfl, hle⟩
                    · simp [jsonwebtokenVerify, hs, hs2, halg, hmac, hn, hlt, hexp, hle] at h
                  | none => simp [jsonwebtokenVerify, hs, hs2, halg, hmac, hn, hlt, hexp] at h
              | none =>
                cases hexp : t.claims.exp with
                | some x =>
                  by_cases hle : x ≤ now
                  · exact ⟨x, rfl, hle⟩
                  · simp [jsonwebtokenVerify, hs, hs2, halg, hmac, hn, hexp, hle] at h
                | none => simp [jsonwebtokenVerify, hs, hs2, halg, hmac, hn, hexp] at h
          · simp [jsonwebtokenVerify, hs, halg, hmac] at h
        · simp [jsonwebtokenVerify, hs, halg] at h
  · rintro ⟨t, rfl, hs, halg, hmac, hnbf, x, hexp, hle⟩
    have halg2 : t.alg ∈ allowedAlgorithms := by simpa using halg
    have hs2 : ¬ (mac secret t.claims = "") := by rw [← hmac]; exact hs
    cases hn : t.claims.nbf with
    | some n =>
      have : ¬ now < n := by have := hnbf n hn; omega
      simp [jsonwebtokenVerify, hs, hs2, halg2, hmac, hn, this, hexp, hle]
    | none => simp [jsonwebtokenVerify, hs, hs2, halg2, hmac, hn, hexp, hle]

/-- C7: `TokenService.verify` either returns the claims or throws a
`TokenFailedVerificationException` whose `reason` is `"expired"` exactly
when the cause is time-based expiry of a well-signed token, and `"invalid"`
for every other failure; a token without a signature (or under a disallowed
algorithm such as `none`) is never accepted. -/
theorem tokenService_verify_reason_spec (mac : String → JwtClaims → String)
    (secret : String) (now : Int) (input : JwtInput) :
    (∀ e, tokenServiceVerify mac secret now input = .error e →
      (e.reason = "expired" ↔
        ∃ t, input = .token t ∧ t.sig ≠ "" ∧ allowedAlgorithms.contains t.alg = true ∧
          t.sig = mac secret t.claims ∧ (∀ n, t.claims.nbf = some n → n ≤ now) ∧
          ∃ x, t.claims.exp = some x ∧ x ≤ now) ∧
      (e.reason = "expired" ∨ e.reason = "invalid")) ∧
    (∀ claims, tokenServiceVerify mac secret now input = .ok claims →
      ∃ t, input = .token t ∧ t.sig ≠ "" ∧ allowedAlgorithms.contains t.alg = true ∧
        t.sig = mac secret t.claims) := by
  constructor
  · intro e he
    unfold tokenServiceVerify at he
    revert he
    cases hj : jsonwebtokenVerify mac secret now input with
    | ok p => intro he; simp at he
    | error err =>
      intro he
      have hcause : e.cause = err := by
        injection he with h2
        rw [← h2]
      constructor
      · have hreason : e.reason = "expired" ↔ err = .tokenExpired := by
          unfold TokenFailedVerificationException.reason
          rw [hcause]
          by_cases hE : err = JwtError.tokenExpired <;> simp [hE]
        rw [hreason]
        rw [← jsonwebtokenVerify_expired_iff mac secret now input, hj]
        constructor
        · rintro rfl; rfl
        · intro h2; injection h2
      · unfold TokenFailedVerificationException.reason
        by_cases hE : e.cause = JwtError.tokenExpired <;> simp [hE]
  · intro claims hok
    unfold tokenServiceVerify at hok
    revert hok
    cases hj : jsonwebtokenVerify mac secret now input with
    | ok p => intro hok; exact jsonwebtokenVerify_ok_inv mac secret now input p hj
    | error err => intro hok; simp at hok

/-- A demonstration MAC for concrete witnesses: the signature of any claim
set under `secret` is `secret ++ "!"`. -/
def macDemo : String → JwtClaims → String := fun secret _ => secret ++ "!"

/-- A well-signed token that expired at time 100. -/
def expiredJwt : SignedJwt :=
  { alg := "HS256",
    claims := { sub := some "user-1", aud := some "session", nbf := some 0, exp := some 100 },
    sig := "secret!" }

/-- Witness for C7: at clock 200, verifying the expired token throws with
reason `"expired"`. -/
theorem tokenService_verify_reason_spec_witness :
    tokenServiceVerify macDemo "secret" 200 (.token expiredJwt)
      = .error ⟨.tokenExpired⟩ ∧
    TokenFailedVerificationException.reason ⟨.tokenExpired⟩ = "expired" := by
  constructor
  · rfl
  · refine (((tokenService_verify_reason_spec macDemo "secret" 200
      (.token expiredJwt)).1 ⟨.tokenExpired⟩ rfl).1).mpr
      ⟨expiredJwt, rfl, by decide, by decide, rfl, ?_, 100, rfl, by decide⟩
    intro n hn
    rw [show expiredJwt.claims.nbf = some 0 from rfl] at hn
    injection hn with h2
    omega

/-- A stored principal used by concrete evaluations. -/
def demoUser : Authenticatable :=
  { id := "user-1", email := "user-1@example.com", password := some "secret!pw" }

/-- A correctly signed, unexpired token whose `aud` claim is `"magic-link"`
and whose `sub` is the id of `demoUser`. -/
def wrongAudienceJwt : SignedJwt :=
  { alg := "HS256",
    claims := { sub := some "user-1", aud := some "magic-link", nbf := some 0, exp := some 100 },
    sig := "secret!" }

/-- C1 (failing direction): `AuthenticationService.authenticateJwt` performs
no audience check — a correctly signed, unexpired token carrying
`aud = "magic-link"` authenticates successfully, returning the principal and
emitting `garmr.authenticated`, instead of failing with a wrong-audience
error as the spec (and the repository's own tests and README) require. -/
theorem authenticateJwt_accepts_wrong_audience :
    wrongAudienceJwt.claims.aud = some "magic-link" ∧
    wrongAudienceJwt.sig = macDemo "secret" wrongAudienceJwt.claims ∧
    jsonwebtokenVerify macDemo "secret" 50 (.token wrongAudienceJwt)
      = .ok wrongAudienceJwt.claims ∧
    authenticateJwt macDemo "secret" 50 [demoUser] (some (.token wrongAudienceJwt))
      = .ok (demoUser, [.authenticated demoUser]) :=
  ⟨rfl, rfl, rfl, rfl⟩

/-- C5: whether the email is unknown under its lowercased form or the
password comparison fails, credential authentication throws the identical
`IncorrectCredentialsException` carrying the email as given, and no event is
emitted. -/
theorem authenticate_credentials_uniform_failure
    (compare : String → Option String → Bool) (store : List Authenticatable)
    (email password : String)
    (h : findByEmail store (lowerStr email) = none ∨
      ∃ entity, findByEmail store (lowerStr email) = some entity ∧
        compare password entity.password = false) :
    authenticateCredentials compare store email password
      = .error (.incorrectCredentials email) ∧
    ∀ entity events,
      authenticateCredentials compare store email password ≠ .ok (entity, events) := by
  have hmain : authenticateCredentials compare store email password
      = .error (.incorrectCredentials email) := by
    rcases h with h | ⟨entity, hf, hc⟩
    · simp [authenticateCredentials, h]
    · simp [authenticateCredentials, hf, hc]
  refine ⟨hmain, fun entity events hok => ?_⟩
  rw [hmain] at hok
  cases hok

/-- A demonstration password comparison: a candidate matches exactly the
stored hash `"hashed-" ++ candidate`. -/
def compareDemo : String → Option String → Bool :=
  fun password stored => stored == some ("hashed-" ++ password)

/-- A stored principal whose password hash matches only `"pw"` under
`compareDemo`. -/
def storedUser : Authenticatable :=
  { id := "user-1", email := "user-1@example.com", password := some "hashed-pw" }

/-- Witness for C5: an unknown email and a wrong password produce the same
error shape, each carrying the email as given. -/
theorem authenticate_credentials_uniform_failure_witness :
    authenticateCredentials compareDemo [storedUser] "Unknown@Example.com" "pw"
      = .error (.incorrectCredentials "Unknown@Example.com") ∧
    authenticateCredentials compareDemo [storedUser] "User-1@Example.com" "wrong"
      = .error (.incorrectCredentials "User-1@Example.com") := by
  constructor
  · exact (authenticate_credentials_uniform_failure compareDemo [storedUser]
      "Unknown@Example.com" "pw" (Or.inl (by decide))).1
  · exact (authenticate_credentials_uniform_failure compareDemo [storedUser]
      "User-1@Example.com" "wrong" (Or.inr ⟨storedUser, by decide, by decide⟩)).1

/-- The principal `RegistrationService.register` persists: the configured
fresh id, the lowercased email and the hashed password. -/
def newPrincipal (hash : String → String) (freshId email password : String) : Authenticatable :=
  { id := freshId, email := lowerStr email, password := some (hash password),
    permissions := none }

/-- C6: registration fails with `EmailAlreadyExistsException` carrying the
email as given when the lowercased email is already stored; otherwise it
persists and returns a principal with the lowercased email and the hashed
(never plaintext) password, after which any registration of an email with
the same lowercase form fails. -/
theorem register_spec (hash : String → String) (freshId : String)
    (store : List Authenticatable) (email password : String) :
    ((∃ entity, findByEmail store (lowerStr email) = some entity) →
      register hash freshId store email password = .error (.emailAlreadyExists email)) ∧
    (findByEmail store (lowerStr email) = none →
      register hash freshId store email password
        = .ok (newPrincipal hash freshId email password,
               store ++ [newPrincipal hash freshId email password],
               [.registered (newPrincipal hash freshId email password)]) ∧
      (newPrincipal hash freshId email password).email = lowerStr email ∧
      (newPrincipal hash freshId email password).password = some (hash password) ∧
      ∀ freshId2 email2 password2, lowerStr email2 = lowerStr email →
        register hash freshId2 (store ++ [newPrincipal hash freshId email password])
            email2 password2
          = .error (.emailAlreadyExists email2)) := by
  constructor
  · rintro ⟨entity, hf⟩
    simp [register, hf]
  · intro hf
    refine ⟨by simp [register, hf, newPrincipal], rfl, rfl, ?_⟩
    intro freshId2 email2 password2 he
    have hfind : findByEmail (store ++ [newPrincipal hash freshId email password])
        (lowerStr email2) = some (newPrincipal hash freshId email password) := by
      rw [he, findByEmail_append_of_none store _ _ hf]
      unfold findByEmail
      rw [List.find?_cons_of_pos _ (by simp [newPrincipal])]
    simp [register, hfind]

/-- A demonstration password hash for concrete registrations. -/
def hashDemo : String → String := fun password => "hashed-" ++ password

/-- Witness for C6: registering `Alice@X.com` stores the lowercased email
with the hashed password, and re-registering `ALICE@x.com` afterwards fails
with `EmailAlreadyExistsException` carrying `ALICE@x.com`. -/
theorem register_spec_witness :
    register hashDemo "id-1" [] "Alice@X.com" "pw"
      = .ok (newPrincipal hashDemo "id-1" "Alice@X.com" "pw",
             [newPrincipal hashDemo "id-1" "Alice@X.com" "pw"],
             [.registered (newPrincipal hashDemo "id-1" "Alice@X.com" "pw")]) ∧
    newPrincipal hashDemo "id-1" "Alice@X.com" "pw"
      = { id := "id-1", email := "alice@x.com", password := some "hashed-pw",
          permissions := none } ∧
    register hashDemo "id-2" ([] ++ [newPrincipal hashDemo "id-1" "Alice@X.com" "pw"])
        "ALICE@x.com" "pw2"
      = .error (.emailAlreadyExists "ALICE@x.com") := by
  refine ⟨?_, by decide, ?_⟩
  · exact ((register_spec hashDemo "id-1" [] "Alice@X.com" "pw").2 (by decide)).1
  · exact ((register_spec hashDemo "id-1" [] "Alice@X.com" "pw").2 (by decide)).2.2.2
      "id-2" "ALICE@x.com" "pw2" (by decide)

/-- The principal `MagicLinkService.verify` creates on first use: the
configured fresh id, the lowercased email claim and no password. -/
def magicNewPrincipal (freshId em : String) : Authenticatable :=
  { id := freshId, email := lowerStr em, password := none, permissions := none }

/-- C9: on a token that verifies with `aud = "magic-link"`, a missing email
claim fails with `"missing email claim"`; a present non-empty email claim is
lowercased, an existing principal is authenticated (`isNewUser = false`,
`garmr.authenticated` emitted), and a new email creates a password-less
principal (`isNewUser = true`, only `garmr.registered` emitted). -/
theorem magicLink_verify_spec (mac : String → JwtClaims → String) (secret : String)
    (now : Int) (freshId : String) (store : List Authenticatable) (input : JwtInput)
    (payload : JwtClaims)
    (hv : tokenServiceVerify mac secret now input = .ok payload)
    (haud : payload.aud = some "magic-link") :
    (payload.email = none →
      magicLinkVerify mac secret now freshId store input
        = .error (.invalidMagicLinkToken "missing email claim")) ∧
    (∀ em, payload.email = some em → em ≠ "" →
      (∀ existing, findByEmail store (lowerStr em) = some existing →
        magicLinkVerify mac secret now freshId store input
          = .ok { entity := existing, isNewUser := false, store := store,
                  events := [.authenticated existing] }) ∧
      (findByEmail store (lowerStr em) = none →
        magicLinkVerify mac secret now freshId store input
          = .ok { entity := magicNewPrincipal freshId em, isNewUser := true,
                  store := store ++ [magicNewPrincipal freshId em],
                  events := [.registered (magicNewPrincipal freshId em)] } ∧
        (magicNewPrincipal freshId em).password = none ∧
        (magicNewPrincipal freshId em).email = lowerStr em)) := by
  constructor
  · intro hem
    unfold magicLinkVerify
    rw [hv]
    simp [haud, hem]
  · intro em hem hne
    constructor
    · intro existing hfind
      unfold magicLinkVerify
      rw [hv]
      simp [haud, hem, hne, hfind]
    · intro hfind
      refine ⟨?_, rfl, rfl⟩
      unfold magicLinkVerify
      rw [hv]
      simp [haud, hem, hne, hfind, magicNewPrincipal]

/-- A well-signed magic-link token for `New.User@Example.com`, valid at
clock 50. -/
def magicLinkJwt : SignedJwt :=
  { alg := "HS256",
    claims := { email := some "New.User@Example.com", aud := some "magic-link",
                nbf := some 0, exp := some 100 },
    sig := "secret!" }

/-- Witness for C9: verifying the magic-link token against an empty store
creates a password-less principal with the lowercased email, flags
`isNewUser`, and emits only `garmr.registered`. -/
theorem magicLink_verify_spec_witness :
    magicLinkVerify macDemo "secret" 50 "id-9" [] (.token magicLinkJwt)
      = .ok { entity := magicNewPrincipal "id-9" "New.User@Example.com", isNewUser := true,
              store := [] ++ [magicNewPrincipal "id-9" "New.User@Example.com"],
              events := [.registered (magicNewPrincipal "id-9" "New.User@Example.com")] } ∧
    magicNewPrincipal "id-9" "New.User@Example.com"
      = { id := "id-9", email := "new.user@example.com", password := none,
          permissions := none } := by
  refine ⟨?_, by decide⟩
  exact (((magicLink_verify_spec macDemo "secret" 50 "id-9" [] (.token magicLinkJwt)
    magicLinkJwt.claims rfl rfl).2 "New.User@Example.com" rfl (by decide)).2 rfl).1

/-- C10: with a principal attached and both permission-metadata slots absent
or empty, the guard admits the request — the empty OR-set never reaches
`requireAnyPermission`, even though `hasAnyPermission` on the empty list is
false. -/
theorem canActivate_empty_requirements (p : Authenticatable)
    (requiredAll requiredAny : Option (List String))
    (hAll : requiredAll = none ∨ requiredAll = some [])
    (hAny : requiredAny = none ∨ requiredAny = some []) :
    canActivate (some p) requiredAll requiredAny = .ok true ∧
    hasAnyPermission p [] = false := by
  rcases hAll with h | h <;> rcases hAny with h2 | h2 <;> subst h <;> subst h2 <;>
    exact ⟨rfl, rfl⟩

/-- Witness for C10: a principal with no permissions passes a guard whose
AND-metadata is absent and whose OR-metadata is the empty list. -/
theorem canActivate_empty_requirements_witness :
    canActivate (some { id := "u1", email := "u1@example.com" }) none (some []) = .ok true := by
  exact (canActivate_empty_requirements { id := "u1", email := "u1@example.com" }
    none (some []) (Or.inl rfl) (Or.inr rfl)).1

/-- C8 counterexample: an `authorization` header that is present but empty
is falsy in JavaScript, so the middleware proceeds unauthenticated instead
of throwing the wrong-scheme error the claim requires (the empty header's
scheme is `""`, which is not `bearer`). -/
theorem middleware_empty_header_counterexample :
    lowerStr (schemeOf "") ≠ "bearer" ∧
    authenticationMiddlewareUse (fun _ => .error (.invalidCredentials "boom")) true (some "")
      = .proceed none false := by
  exact ⟨by decide, rfl⟩

/-- C8 (amended): an absent — or present but empty, hence falsy — header
proceeds unauthenticated; a non-empty header with a non-bearer scheme or
without a truthy token throws `InvalidCredentialsException` with the
corresponding message; a well-formed bearer header attaches the principal on
success and on failure proceeds unauthenticated with a warning written iff a
request logger is present. -/
theorem authentication_middleware_spec
    (auth : String → Except AuthException Authenticatable) (hasLogger : Bool) :
    (authenticationMiddlewareUse auth hasLogger none = .proceed none false) ∧
    (authenticationMiddlewareUse auth hasLogger (some "") = .proceed none false) ∧
    (∀ h, h ≠ "" → lowerStr (schemeOf h) ≠ "bearer" →
      authenticationMiddlewareUse auth hasLogger (some h)
        = .threw ("Invalid authentication scheme. Expected Bearer but got \""
            ++ schemeOf h ++ "\"")) ∧
    (∀ h, h ≠ "" → lowerStr (schemeOf h) = "bearer" → truthy (bearerTokenOf h) = false →
      authenticationMiddlewareUse auth hasLogger (some h)
        = .threw "Invalid authentication header format") ∧
    (∀ h t, h ≠ "" → lowerStr (schemeOf h) = "bearer" → bearerTokenOf h = some t → t ≠ "" →
      (∀ e, auth t = .error e →
        authenticationMiddlewareUse auth hasLogger (some h) = .proceed none hasLogger) ∧
      (∀ p, auth t = .ok p →
        authenticationMiddlewareUse auth hasLogger (some h) = .proceed (some p) false)) := by
  refine ⟨rfl, rfl, ?_, ?_, ?_⟩
  · intro h hne hscheme
    simp [authenticationMiddlewareUse, hne, hscheme]
  · intro h hne hscheme htok
    cases htk : bearerTokenOf h with
    | none => simp [authenticationMiddlewareUse, hne, hscheme, htk]
    | some t =>
      rw [htk] at htok
      have ht : t = "" := by
        by_contra hc
        simp [truthy, hc] at htok
      subst ht
      simp [authenticationMiddlewareUse, hne, hscheme, htk]
  · intro h t hne hscheme htk htne
    constructor
    · intro e herr
      simp [authenticationMiddlewareUse, hne, hscheme, htk, htne, herr]
    · intro p hok
      simp [authenticationMiddlewareUse, hne, hscheme, htk, htne, hok]

/-- Witness for C8 (amended): a `Basic` header throws the wrong-scheme
error, and a bearer header whose token fails authentication proceeds
unauthenticated with the warning flag set. -/
theorem authentication_middleware_spec_witness :
    authenticationMiddlewareUse (fun _ => .error (.invalidCredentials "bad signature")) true
        (some "Basic abc")
      = .threw "Invalid authentication scheme. Expected Bearer but got \"Basic\"" ∧
    authenticationMiddlewareUse (fun _ => .error (.invalidCredentials "bad signature")) true
        (some "Bearer abc")
      = .proceed none true := by
  constructor
  · exact (authentication_middleware_spec
      (fun _ => .error (.invalidCredentials "bad signature")) true).2.2.1
      "Basic abc" (by decide) (by decide)
  · exact ((authentication_middleware_spec
      (fun _ => .error (.invalidCredentials "bad signature")) true).2.2.2.2
      "Bearer abc" "abc" (by decide) (by decide) (by decide) (by decide)).1
      (.invalidCredentials "bad signature") rfl

end Garmr
